import Mathlib

/-
Verification of the order-resolution and process-driving core of the
dexlyn_bot trading bot (src/dexlyn_bot.py), as a shallow embedding.
Monetary amounts coming from JSON are modelled as exact rationals;
blockchain unit amounts as integers.
-/

namespace DexlynBot

/-- Truncation toward zero of a rational, the semantics of Python `int()`
applied to an exact numeric value. -/
def pyInt (q : ℚ) : ℤ := q.num.tdiv q.den

/-- Network decimal configuration and contract data, one record of
`network.json` (`DEFAULT_NETWORK` shape). -/
structure NetworkConfig where
  size_decimals : ℕ
  collateral_decimals : ℕ
  price_decimals : ℕ

/-- Pair-level defaults, one record of `pairs.json` (`DEFAULT_PAIRS` shape). -/
structure PairConfig where
  default_size_usd : ℚ
  default_collateral_usd : ℚ
  default_price : ℚ

/-- The raw `custom_parameters` block of an order description.  Every field is
optional: presence of a key in the Python dict is modelled as `some`. -/
structure CustomParams where
  size_units : Option ℤ := none
  collateral_units : Option ℤ := none
  price_units : Option ℤ := none
  is_long : Option Bool := none
  is_increase : Option Bool := none
  is_market : Option Bool := none
  can_execute_above_price : Option Bool := none
  stop_loss_units : Option ℤ := none
  take_profit_units : Option ℤ := none

/-- A raw order description (one entry of a strategy's `orders` list).
Optional JSON keys are modelled as `Option` fields. -/
structure RawOrder where
  action : String
  size_usd : Option ℚ := none
  size_units : Option ℤ := none
  collateral_usd : Option ℚ := none
  collateral_units : Option ℤ := none
  price : Option ℚ := none
  price_units : Option ℤ := none
  stop_loss : Option ℚ := none
  stop_loss_units : Option ℤ := none
  take_profit : Option ℚ := none
  take_profit_units : Option ℤ := none
  is_long : Option Bool := none
  is_increase : Option Bool := none
  is_market : Option Bool := none
  can_execute_above_price : Option Bool := none
  custom_parameters : Option CustomParams := none

/-- The fully resolved, contract-ready parameter tuple (the eleven positional
tokens of `place_order_v3` minus the fixed delegate address). -/
structure OrderSpec where
  wallet_address : String
  size_units : ℤ
  collateral_units : ℤ
  price_units : ℤ
  is_long : Bool
  is_increase : Bool
  is_market : Bool
  stop_loss_units : ℤ
  take_profit_units : ℤ
  can_execute_above_price : Bool
deriving DecidableEq

/-- AdvancedTradingEngine.usd_to_units (lines 462-465): `int(usd_amount *
10 ** decimals)`.  The Python method selects `decimals` from the network
config by the `decimal_type` key; callers here pass the selected decimal
count directly. -/
def usd_to_units (usd_amount : ℚ) (decimals : ℕ) : ℤ :=
  pyInt (usd_amount * 10 ^ decimals)

/-- AdvancedTradingEngine.price_to_units (lines 467-469): `int(price *
10 ** price_decimals)`. -/
def price_to_units (net : NetworkConfig) (price : ℚ) : ℤ :=
  pyInt (price * 10 ^ net.price_decimals)

/-- AdvancedTradingEngine.get_size_units (lines 558-565). -/
def get_size_units (net : NetworkConfig) (o : RawOrder) (pair : PairConfig) : ℤ :=
  match o.size_units with
  | some u => u
  | none =>
    match o.size_usd with
    | some usd => usd_to_units usd net.size_decimals
    | none => usd_to_units pair.default_size_usd net.size_decimals

/-- AdvancedTradingEngine.get_collateral_units (lines 567-574). -/
def get_collateral_units (net : NetworkConfig) (o : RawOrder) (pair : PairConfig) : ℤ :=
  match o.collateral_units with
  | some u => u
  | none =>
    match o.collateral_usd with
    | some usd => usd_to_units usd net.collateral_decimals
    | none => usd_to_units pair.default_collateral_usd net.collateral_decimals

/-- AdvancedTradingEngine.get_price_units (lines 576-583). -/
def get_price_units (net : NetworkConfig) (o : RawOrder) (pair : PairConfig) : ℤ :=
  match o.price_units with
  | some u => u
  | none =>
    match o.price with
    | some p => price_to_units net p
    | none => price_to_units net pair.default_price

/-- AdvancedTradingEngine.get_stop_loss_units (lines 585-592): the USD field
is converted only when it is present and strictly positive. -/
def get_stop_loss_units (net : NetworkConfig) (o : RawOrder) : ℤ :=
  match o.stop_loss_units with
  | some u => u
  | none =>
    match o.stop_loss with
    | some sl => if 0 < sl then price_to_units net sl else 0
    | none => 0

/-- AdvancedTradingEngine.get_take_profit_units (lines 594-601). -/
def get_take_profit_units (net : NetworkConfig) (o : RawOrder) : ℤ :=
  match o.take_profit_units with
  | some u => u
  | none =>
    match o.take_profit with
    | some tp => if 0 < tp then price_to_units net tp else 0
    | none => 0

/-- The `action_map` dictionary built inside
AdvancedTradingEngine.parse_action_flags (lines 607-621).  Entries for the
four dynamic actions and `custom` read the order's own override fields with
secondary literal defaults, exactly as the Python dict comprehension does. -/
def action_map_entry (action : String) (o : RawOrder) : Option (Bool × Bool × Bool) :=
  if action = "market_open_long" then some (true, true, true)
  else if action = "market_open_short" then some (false, true, true)
  else if action = "limit_open_long" then some (true, true, false)
  else if action = "limit_open_short" then some (false, true, false)
  else if action = "market_close_long" then some (true, false, true)
  else if action = "market_close_short" then some (false, false, true)
  else if action = "limit_close_long" then some (true, false, false)
  else if action = "limit_close_short" then some (false, false, false)
  else if action = "add_to_position" then
    some (o.is_long.getD true, true, o.is_market.getD false)
  else if action = "add_collateral" then
    some (o.is_long.getD true, true, true)
  else if action = "partial_close" then
    some (o.is_long.getD true, false, o.is_market.getD false)
  else if action = "full_close" then
    some (o.is_long.getD true, false, o.is_market.getD true)
  else if action = "custom" then
    some (o.is_long.getD true, o.is_increase.getD true, o.is_market.getD false)
  else none

/-- AdvancedTradingEngine.parse_action_flags (lines 603-633): table lookup,
`ValueError` on an unknown action, then each flag independently overridable
by an explicit field on the raw order (`order_config.get(key, default)`). -/
def parse_action_flags (action : String) (o : RawOrder) :
    Except String (Bool × Bool × Bool) :=
  match action_map_entry action o with
  | none => .error ("Unknown action: " ++ action)
  | some (default_long, default_increase, default_market) =>
    .ok (o.is_long.getD default_long, o.is_increase.getD default_increase,
         o.is_market.getD default_market)

/-- AdvancedTradingEngine.calculate_execution_guard (lines 635-644).  The
`is_market` argument is accepted but never read, as in the source. -/
def calculate_execution_guard (is_long is_increase is_market : Bool) : Bool :=
  if is_increase && is_long then false
  else if is_increase && !is_long then true
  else if !is_increase && is_long then true
  else false

/-- AdvancedTradingEngine.create_standard_order (lines 510-556): unit
resolution, flag parsing, and the guard chain (explicit override, else
auto-calculation when enabled by config, else the safe default `true`). -/
def create_standard_order (net : NetworkConfig) (pair : PairConfig) (o : RawOrder)
    (wallet_address : String) (auto_calculate : Bool) : Except String OrderSpec :=
  match parse_action_flags o.action o with
  | .error e => .error e
  | .ok (is_long, is_increase, is_market) =>
    let can_execute_above : Bool :=
      match o.can_execute_above_price with
      | some b => b
      | none =>
        if auto_calculate then calculate_execution_guard is_long is_increase is_market
        else true
    .ok {
      wallet_address := wallet_address
      size_units := get_size_units net o pair
      collateral_units := get_collateral_units net o pair
      price_units := get_price_units net o pair
      is_long := is_long
      is_increase := is_increase
      is_market := is_market
      stop_loss_units := get_stop_loss_units net o
      take_profit_units := get_take_profit_units net o
      can_execute_above_price := can_execute_above
    }

/-- The required-field scan of AdvancedTradingEngine.create_custom_order
(lines 487-492): the first field of `required_fields` absent from the block,
if any, in the source's iteration order. -/
def missing_required_field (c : CustomParams) : Option String :=
  if c.size_units = none then some "size_units"
  else if c.collateral_units = none then some "collateral_units"
  else if c.price_units = none then some "price_units"
  else if c.is_long = none then some "is_long"
  else if c.is_increase = none then some "is_increase"
  else if c.is_market = none then some "is_market"
  else if c.can_execute_above_price = none then some "can_execute_above_price"
  else none

/-- AdvancedTradingEngine.create_custom_order (lines 481-508): validate the
seven required fields, then emit the block verbatim with stop-loss and
take-profit defaulting to 0 (`custom_params.get(key, 0)`).  Past the
validation the required fields are provably present, so the `getD` defaults
on them are unreachable. -/
def create_custom_order (c : CustomParams) (wallet_address : String) :
    Except String OrderSpec :=
  match missing_required_field c with
  | some f => .error ("Custom order missing required field: " ++ f)
  | none =>
    .ok {
      wallet_address := wallet_address
      size_units := c.size_units.getD 0
      collateral_units := c.collateral_units.getD 0
      price_units := c.price_units.getD 0
      is_long := c.is_long.getD false
      is_increase := c.is_increase.getD false
      is_market := c.is_market.getD false
      stop_loss_units := c.stop_loss_units.getD 0
      take_profit_units := c.take_profit_units.getD 0
      can_execute_above_price := c.can_execute_above_price.getD false
    }

/-- AdvancedTradingEngine.create_order_parameters (lines 471-479): dispatch
to the raw-override path when a `custom_parameters` block is present,
otherwise to the derived path. -/
def create_order_parameters (net : NetworkConfig) (pair : PairConfig) (o : RawOrder)
    (wallet_address : String) (auto_calculate : Bool) : Except String OrderSpec :=
  match o.custom_parameters with
  | some c => create_custom_order c wallet_address
  | none => create_standard_order net pair o wallet_address auto_calculate

/-- Outcome classification of AdvancedTradeExecutor.execute_order
(lines 722-729): if the buffered output contains a case-insensitive
"success" or "executed" marker the order is reported successful; the other
branch only logs the raw output and also reports success. -/
def classify_output (output : String) : Bool :=
  if output.toLower.containsSubstr "success" || output.toLower.containsSubstr "executed" then
    true
  else
    true

/-- Environment of one AdvancedTradeExecutor.execute_order call: the outcome
of each fallible step, `Except.error` standing for a raised exception.
`resolve` covers create_order_parameters and the wallet/pair lookups
(lines 674-678), `spawn` the `expect.spawn` call (line 701), `secret_phase`
the password expect/sendline block (lines 706-711), `confirm_phases` the
bounded confirmation attempts (lines 713-719), and `completion` the final
EOF wait (line 721), whose `ok` value is the buffered output. -/
structure DriverEnv where
  resolve : Except String OrderSpec
  spawn : Except String Unit
  secret_phase : Except String Unit
  confirm_phases : List (Except String Unit)
  completion : Except String String

/-- Observable outcome of one execute_order call: the returned boolean,
whether a process handle came into existence (`expect.spawn` returned), and
whether the `finally` block called `close(force=True)` on that handle. -/
structure ExecOutcome where
  success : Bool
  spawned : Bool
  close_called : Bool
deriving DecidableEq

/-- AdvancedTradeExecutor.execute_order (lines 656-738).  The secret and
confirmation phases sit inside phase-local `try ... except: pass` handlers,
so their outcomes never influence control flow and the model does not
consult `env.secret_phase` or `env.confirm_phases`.  Any exception from
resolution, spawn, or the completion wait reaches the order-level
`except Exception` handler, which returns `False`.  The `finally` block
closes the handle with `force=True` whenever `child` was bound, i.e.
whenever spawn returned; before that point the close attempt raises
`NameError`, swallowed by the nested handler, and no handle exists. -/
def execute_order (env : DriverEnv) : ExecOutcome :=
  match env.resolve with
  | .error _ => { success := false, spawned := false, close_called := false }
  | .ok _ =>
    match env.spawn with
    | .error _ => { success := false, spawned := false, close_called := false }
    | .ok _ =>
      match env.completion with
      | .error _ => { success := false, spawned := true, close_called := true }
      | .ok output =>
        { success := classify_output output, spawned := true, close_called := true }

/-- Events observable while a strategy runs: a driver invocation for one raw
order, the inter-order sleep (line 761), and the inter-cycle sleep
(line 953). -/
inductive Event (α : Type) where
  | exec (o : α)
  | orderSleep
  | cycleSleep
deriving DecidableEq

def Event.isExec {α : Type} : Event α → Bool
  | .exec _ => true
  | _ => false

def Event.isOrderSleep {α : Type} : Event α → Bool
  | .orderSleep => true
  | _ => false

def Event.isCycleSleep {α : Type} : Event α → Bool
  | .cycleSleep => true
  | _ => false

/-- The driver invocations of an event list, in order. -/
def exec_list {α : Type} (es : List (Event α)) : List α :=
  es.filterMap fun e =>
    match e with
    | .exec o => some o
    | _ => none

/-- Body of the order loop of AdvancedTradeExecutor.execute_strategy
(lines 750-761): `for i, order in enumerate(orders, 1)`, executing each
order and sleeping afterwards exactly when `i < len(orders)`.  `n` is the
full list length, `i` the 1-based index of the first remaining order. -/
def strategy_loop {α : Type} (n : ℕ) : List α → ℕ → List (Event α)
  | [], _ => []
  | o :: rest, i =>
    Event.exec o :: ((if i < n then [Event.orderSleep] else []) ++ strategy_loop n rest (i + 1))

/-- AdvancedTradeExecutor.execute_strategy (lines 740-764), reduced to its
event trace: one pass over the strategy's ordered orders. -/
def strategy_events {α : Type} (orders : List α) : List (Event α) :=
  strategy_loop orders.length orders 1

/-- Loop guard of AdvancedDexlynTradingBot.run (line 944):
`while cycles == -1 or cycle_count < cycles`. -/
def loop_condition (cycles : ℤ) (cycle_count : ℕ) : Bool :=
  cycles == -1 || decide ((cycle_count : ℤ) < cycles)

/-- AdvancedDexlynTradingBot.run (lines 942-953) for a non-negative cycle
count, reduced to its event trace; the argument is the number of cycles
still to run.  After each full cycle the inter-cycle sleep elapses exactly
when the loop guard would admit another cycle (line 950), i.e. when further
cycles remain. -/
def run_events {α : Type} (orders : List α) : ℕ → List (Event α)
  | 0 => []
  | c + 1 =>
    strategy_events orders ++ (if 0 < c then [Event.cycleSleep] else []) ++ run_events orders c

/-- The thirteen action keywords of the fixed action set (keys of
`action_map`, lines 607-621). -/
def known_actions : List String :=
  ["market_open_long", "market_open_short", "limit_open_long", "limit_open_short",
   "market_close_long", "market_close_short", "limit_close_long", "limit_close_short",
   "add_to_position", "add_collateral", "partial_close", "full_close", "custom"]

/-- Documented default flag triples, written from the specification's words
(section 4.2): the eight directional open/close combinations read off the
action name; the four dynamic actions and `custom` default to direction
long, market false, except `add_collateral` and `full_close`, which default
market true.  This is the spec-side reference for comparison with
`parse_action_flags`, not a translation of the source. -/
def documented_default (action : String) : Bool × Bool × Bool :=
  if action = "market_open_long" then (true, true, true)
  else if action = "market_open_short" then (false, true, true)
  else if action = "limit_open_long" then (true, true, false)
  else if action = "limit_open_short" then (false, true, false)
  else if action = "market_close_long" then (true, false, true)
  else if action = "market_close_short" then (false, false, true)
  else if action = "limit_close_long" then (true, false, false)
  else if action = "limit_close_short" then (false, false, false)
  else if action = "add_to_position" then (true, true, false)
  else if action = "add_collateral" then (true, true, true)
  else if action = "partial_close" then (true, false, false)
  else if action = "full_close" then (true, false, true)
  else (true, true, false)

/-- Derived-path stop-loss resolution as the claim words it: exact-unit
field verbatim, otherwise any present USD field converted, otherwise 0.
This is the spec-side reference for comparison with
`get_stop_loss_units`, not a translation of the source. -/
def spec_stop_loss_units (net : NetworkConfig) (o : RawOrder) : ℤ :=
  match o.stop_loss_units with
  | some u => u
  | none =>
    match o.stop_loss with
    | some sl => price_to_units net sl
    | none => 0

/-- Testnet decimal configuration from `DEFAULT_NETWORK` (lines 245-251). -/
def net0 : NetworkConfig :=
  { size_decimals := 6, collateral_decimals := 6, price_decimals := 10 }

/-- ETH_USD pair defaults from `DEFAULT_PAIRS` (lines 275-285). -/
def pair0 : PairConfig :=
  { default_size_usd := 300, default_collateral_usd := 3, default_price := 3500 }

/-- Raw order carrying a present but negative USD stop-loss and no exact
stop-loss units. -/
def oNeg : RawOrder := { action := "market_open_long", stop_loss := some (-5) }

/-- Raw order with every quantity given in exact units, the size also given
in USD. -/
def oW : RawOrder :=
  { action := "market_open_long", size_usd := some 100, size_units := some 42,
    collateral_units := some 7, price_units := some 9,
    stop_loss_units := some 11, take_profit_units := some 13 }

/-- The resolved order for `oW` under `net0`/`pair0` with auto guard
calculation enabled. -/
def specW : OrderSpec :=
  { wallet_address := "0xabc", size_units := 42, collateral_units := 7,
    price_units := 9, is_long := true, is_increase := true, is_market := true,
    stop_loss_units := 11, take_profit_units := 13,
    can_execute_above_price := false }

/-- Raw order supplying no optional field at all. -/
def oPlain : RawOrder := { action := "market_open_long" }

/-- Raw order with a negative USD stop-loss and an absent take-profit. -/
def oC10 : RawOrder := { action := "market_open_long", stop_loss := some (-3) }

/-- Raw order with a negative USD stop-loss and no stop-loss units, while
its take-profit is given in exact units. -/
def oC10b : RawOrder :=
  { action := "market_open_long", stop_loss := some (-5), take_profit_units := some 7 }

/-- Custom parameter block missing only `is_market` among the required
fields. -/
def cMissingMarket : CustomParams :=
  { size_units := some 500000000, collateral_units := some 10000000,
    price_units := some 3550, is_long := some true, is_increase := some true,
    can_execute_above_price := some false }

/-- Driver environment in which every phase succeeds. -/
def envOk : DriverEnv :=
  { resolve := .ok specW, spawn := .ok (), secret_phase := .ok (),
    confirm_phases := [], completion := .ok "Transaction executed successfully" }

/-- Driver environment in which the secret prompt wait raises (a pexpect
timeout) while everything else succeeds. -/
def envSwallowed : DriverEnv :=
  { resolve := .ok specW, spawn := .ok (), secret_phase := .error "TIMEOUT",
    confirm_phases := [.error "TIMEOUT"], completion := .ok "raw output" }

/-- Driver environment in which the spawn raises. -/
def envSpawnFail : DriverEnv :=
  { resolve := .ok specW, spawn := .error "spawn failed", secret_phase := .ok (),
    confirm_phases := [], completion := .error "never reached" }

/-- Fields of the custom parameter block the claim requires, as a predicate
linking a field name to its absence from the block. -/
def custom_field_missing (c : CustomParams) (f : String) : Prop :=
  (f = "size_units" ∧ c.size_units = none) ∨
  (f = "collateral_units" ∧ c.collateral_units = none) ∨
  (f = "price_units" ∧ c.price_units = none) ∨
  (f = "is_long" ∧ c.is_long = none) ∨
  (f = "is_increase" ∧ c.is_increase = none) ∨
  (f = "is_market" ∧ c.is_market = none) ∨
  (f = "can_execute_above_price" ∧ c.can_execute_above_price = none)

theorem pyInt_eq_floor_of_nonneg (q : ℚ) (h : 0 ≤ q) : pyInt q = ⌊q⌋ := by
  rw [pyInt, Int.tdiv_eq_ediv (Rat.num_nonneg.mpr h) (by positivity)]
  conv_rhs => rw [← Rat.num_div_den q, Rat.floor_intCast_div_natCast]

theorem pyInt_neg_arg (q : ℚ) : pyInt (-q) = -pyInt q := by
  rw [pyInt, pyInt, Rat.neg_num, Rat.neg_den, Int.neg_tdiv]

theorem classify_output_true (s : String) : classify_output s = true := by
  unfold classify_output
  exact ite_self true

/-- Claim C2 counterexample: `usd_to_units` raises nothing on a negative
amount; at amount −1 with 6 decimals it returns the value −1000000, where
the claim demands a `ValidationError` instead of a returned value.  The
source body `int(usd_amount * (10 ** decimals))` has no validation at all. -/
theorem usd_to_units_negative_returns_value : usd_to_units (-1) 6 = -1000000 := by
  have h : ((-1 : ℚ) * 10 ^ 6) = ((-1000000 : ℤ) : ℚ) := by norm_num
  rw [usd_to_units, h, pyInt]
  simp

/-- Claim C2 (amended): `usd_to_units amount decimals` equals
`⌊amount * 10 ^ decimals⌋` for every non-negative amount — in particular
`usd_to_units 100 6 = 100000000` — and for every negative amount it does
not fail: it returns the truncation toward zero, `-⌊-(amount * 10 ^ d)⌋`. -/
theorem usd_to_units_truncation (q : ℚ) (d : ℕ) (h : 0 ≤ q) :
    usd_to_units q d = ⌊q * 10 ^ d⌋ ∧
    usd_to_units 100 6 = 100000000 ∧
    ∀ r : ℚ, ∀ e : ℕ, r < 0 → usd_to_units r e = -⌊-(r * 10 ^ e)⌋ := by
  refine ⟨?_, ?_, ?_⟩
  · rw [usd_to_units, pyInt_eq_floor_of_nonneg _ (by positivity)]
  · rw [usd_to_units, pyInt_eq_floor_of_nonneg _ (by norm_num)]
    norm_num
  · intro r e hr
    have h10 : (0 : ℚ) ≤ 10 ^ e := by positivity
    have hnn : 0 ≤ -(r * 10 ^ e) := by nlinarith
    have harg : r * 10 ^ e = -(-(r * 10 ^ e)) := by ring
    rw [usd_to_units, harg, pyInt_neg_arg, pyInt_eq_floor_of_nonneg _ hnn]
    simp

/-- Witness for `usd_to_units_truncation` at amount 100, 6 decimals. -/
theorem usd_to_units_truncation_witness :
    (0 : ℚ) ≤ 100 ∧ usd_to_units 100 6 = ⌊(100 : ℚ) * 10 ^ 6⌋ :=
  ⟨by norm_num, (usd_to_units_truncation 100 6 (by norm_num)).1⟩

/-- Claim C10: on the derived path, with no exact stop-loss units and a USD
stop-loss that is absent or not strictly positive, the resolved stop-loss
units are 0 (unset) and no error arises; the same holds, independently, for
take-profit.  Each side's conclusion depends only on its own fields.  The
embedding functions are total, so no error path exists. -/
theorem nonpositive_stop_take_profit_unset (net : NetworkConfig) (o : RawOrder) :
    (o.stop_loss_units = none → (∀ v, o.stop_loss = some v → v ≤ 0) →
      get_stop_loss_units net o = 0) ∧
    (o.take_profit_units = none → (∀ v, o.take_profit = some v → v ≤ 0) →
      get_take_profit_units net o = 0) := by
  constructor
  · intro h1 h2
    unfold get_stop_loss_units
    rw [h1]
    cases hv : o.stop_loss with
    | none => rfl
    | some v => simp [not_lt.mpr (h2 v hv)]
  · intro h1 h2
    unfold get_take_profit_units
    rw [h1]
    cases hv : o.take_profit with
    | none => rfl
    | some v => simp [not_lt.mpr (h2 v hv)]

/-- Witness for `nonpositive_stop_take_profit_unset`: in `oC10b` the
stop-loss side alone applies — negative USD stop-loss, no stop-loss units,
while take-profit units are present — and resolves to 0; in `oC10` the
take-profit side applies with the field absent entirely. -/
theorem nonpositive_stop_take_profit_unset_witness :
    get_stop_loss_units net0 oC10b = 0 ∧ get_take_profit_units net0 oC10 = 0 := by
  constructor
  · exact (nonpositive_stop_take_profit_unset net0 oC10b).1 rfl
      (by
        intro v hv
        injection hv with h
        rw [← h]
        norm_num)
  · exact (nonpositive_stop_take_profit_unset net0 oC10).2 rfl
      (by intro v hv; exact Option.noConfusion hv)

theorem create_standard_order_fields (net : NetworkConfig) (pair : PairConfig)
    (o : RawOrder) (w : String) (auto : Bool) (spec : OrderSpec)
    (hres : create_standard_order net pair o w auto = .ok spec) :
    spec.size_units = get_size_units net o pair ∧
    spec.collateral_units = get_collateral_units net o pair ∧
    spec.price_units = get_price_units net o pair ∧
    spec.stop_loss_units = get_stop_loss_units net o ∧
    spec.take_profit_units = get_take_profit_units net o := by
  unfold create_standard_order at hres
  cases hp : parse_action_flags o.action o with
  | error e => rw [hp] at hres; exact absurd hres (by simp)
  | ok t =>
    obtain ⟨l, i, m⟩ := t
    rw [hp] at hres
    simp only [Except.ok.injEq] at hres
    subst hres
    exact ⟨rfl, rfl, rfl, rfl, rfl⟩

/-- Claim C1 counterexample: a raw order whose USD stop-loss is present but
negative (`oNeg`, stop_loss = −5).  The claim's precedence demands the
converted USD value; the code resolves the OrderSpec stop-loss to 0
instead, because `get_stop_loss_units` converts only when the USD value is
strictly positive. -/
theorem negative_stop_loss_usd_not_converted :
    (create_standard_order net0 pair0 oNeg "0xdead" true).map OrderSpec.stop_loss_units
      = Except.ok 0 ∧
    spec_stop_loss_units net0 oNeg = -50000000000 := by
  constructor
  · have hparse : parse_action_flags oNeg.action oNeg = .ok (true, true, true) := rfl
    unfold create_standard_order
    rw [hparse]
    have hsl : get_stop_loss_units net0 oNeg = 0 := by
      unfold get_stop_loss_units oNeg
      norm_num
    simp [Except.map, hsl]
  · have h : ((-5 : ℚ) * 10 ^ 10) = ((-50000000000 : ℤ) : ℚ) := by norm_num
    have h2 : spec_stop_loss_units net0 oNeg = pyInt ((-5 : ℚ) * 10 ^ (10 : ℕ)) := rfl
    rw [h2, h, pyInt]
    simp

/-- Claim C1 (amended): on the derived path each resolved OrderSpec quantity
follows the precedence exact-unit field > USD field (converted) > pair
default, for size, collateral and price; for stop-loss and take-profit the
exact-unit field wins, the USD field is converted only when it is strictly
positive, and a present but non-positive USD value, like an absent one,
resolves to 0 (unset).  When both the exact-unit and the USD fields are
present, the resolved field equals the exact-unit value. -/
theorem resolved_units_precedence (net : NetworkConfig) (pair : PairConfig)
    (o : RawOrder) (w : String) (auto : Bool) (spec : OrderSpec)
    (hres : create_standard_order net pair o w auto = .ok spec) :
    ((∀ u, o.size_units = some u → spec.size_units = u) ∧
     (o.size_units = none → ∀ v, o.size_usd = some v →
        spec.size_units = usd_to_units v net.size_decimals) ∧
     (o.size_units = none → o.size_usd = none →
        spec.size_units = usd_to_units pair.default_size_usd net.size_decimals)) ∧
    ((∀ u, o.collateral_units = some u → spec.collateral_units = u) ∧
     (o.collateral_units = none → ∀ v, o.collateral_usd = some v →
        spec.collateral_units = usd_to_units v net.collateral_decimals) ∧
     (o.collateral_units = none → o.collateral_usd = none →
        spec.collateral_units = usd_to_units pair.default_collateral_usd net.collateral_decimals)) ∧
    ((∀ u, o.price_units = some u → spec.price_units = u) ∧
     (o.price_units = none → ∀ v, o.price = some v →
        spec.price_units = price_to_units net v) ∧
     (o.price_units = none → o.price = none →
        spec.price_units = price_to_units net pair.default_price)) ∧
    ((∀ u, o.stop_loss_units = some u → spec.stop_loss_units = u) ∧
     (o.stop_loss_units = none → ∀ v, o.stop_loss = some v → 0 < v →
        spec.stop_loss_units = price_to_units net v) ∧
     (o.stop_loss_units = none → (∀ v, o.stop_loss = some v → ¬ 0 < v) →
        spec.stop_loss_units = 0)) ∧
    ((∀ u, o.take_profit_units = some u → spec.take_profit_units = u) ∧
     (o.take_profit_units = none → ∀ v, o.take_profit = some v → 0 < v →
        spec.take_profit_units = price_to_units net v) ∧
     (o.take_profit_units = none → (∀ v, o.take_profit = some v → ¬ 0 < v) →
        spec.take_profit_units = 0)) := by
  obtain ⟨hs, hc, hp, hsl, htp⟩ :=
    create_standard_order_fields net pair o w auto spec hres
  refine ⟨⟨?_, ?_, ?_⟩, ⟨?_, ?_, ?_⟩, ⟨?_, ?_, ?_⟩, ⟨?_, ?_, ?_⟩, ⟨?_, ?_, ?_⟩⟩
  · intro u hu; rw [hs]; unfold get_size_units; rw [hu]
  · intro h0 v hv; rw [hs]; unfold get_size_units; rw [h0, hv]
  · intro h0 h1; rw [hs]; unfold get_size_units; rw [h0, h1]
  · intro u hu; rw [hc]; unfold get_collateral_units; rw [hu]
  · intro h0 v hv; rw [hc]; unfold get_collateral_units; rw [h0, hv]
  · intro h0 h1; rw [hc]; unfold get_collateral_units; rw [h0, h1]
  · intro u hu; rw [hp]; unfold get_price_units; rw [hu]
  · intro h0 v hv; rw [hp]; unfold get_price_units; rw [h0, hv]
  · intro h0 h1; rw [hp]; unfold get_price_units; rw [h0, h1]
  · intro u hu; rw [hsl]; unfold get_stop_loss_units; rw [hu]
  · intro h0 v hv hpos; rw [hsl]; unfold get_stop_loss_units
    rw [h0, hv]; simp [hpos]
  · intro h0 hv; rw [hsl]; unfold get_stop_loss_units; rw [h0]
    cases hcase : o.stop_loss with
    | none => rfl
    | some v => simp [hv v hcase]
  · intro u hu; rw [htp]; unfold get_take_profit_units; rw [hu]
  · intro h0 v hv hpos; rw [htp]; unfold get_take_profit_units
    rw [h0, hv]; simp [hpos]
  · intro h0 hv; rw [htp]; unfold get_take_profit_units; rw [h0]
    cases hcase : o.take_profit with
    | none => rfl
    | some v => simp [hv v hcase]

/-- Witness for `resolved_units_precedence`: order `oW` gives both
`size_units = 42` and `size_usd = 100`; the resolved size is the exact-unit
value 42, not the converted USD value. -/
theorem resolved_units_precedence_witness :
    oW.size_units = some 42 ∧ oW.size_usd = some 100 ∧ specW.size_units = 42 := by
  refine ⟨rfl, rfl, ?_⟩
  exact (resolved_units_precedence net0 pair0 oW "0xabc" true specW rfl).1.1 42 rfl

/-- Claim C3: for every action of the fixed set, `parse_action_flags`
returns the documented default triple when the raw order supplies no flag
override, and whenever a flag field is explicitly present its resolved
value equals the supplied value verbatim, independently of the other flags,
overriding table defaults and nested dynamic defaults alike. -/
theorem action_flag_matrix_defaults_and_overrides (action : String) (o : RawOrder)
    (hmem : action ∈ known_actions) :
    (o.is_long = none → o.is_increase = none → o.is_market = none →
      parse_action_flags action o = .ok (documented_default action)) ∧
    (∀ b t, o.is_long = some b → parse_action_flags action o = .ok t → t.1 = b) ∧
    (∀ b t, o.is_increase = some b → parse_action_flags action o = .ok t → t.2.1 = b) ∧
    (∀ b t, o.is_market = some b → parse_action_flags action o = .ok t → t.2.2 = b) := by
  refine ⟨?_, ?_, ?_, ?_⟩
  · intro h1 h2 h3
    fin_cases hmem <;>
      simp [parse_action_flags, action_map_entry, documented_default, h1, h2, h3]
  · intro b t hb ht
    unfold parse_action_flags at ht
    cases he : action_map_entry action o with
    | none => rw [he] at ht; exact absurd ht (by simp)
    | some d =>
      obtain ⟨d1, d2, d3⟩ := d
      rw [he] at ht
      simp only [Except.ok.injEq] at ht
      subst ht
      simp [hb]
  · intro b t hb ht
    unfold parse_action_flags at ht
    cases he : action_map_entry action o with
    | none => rw [he] at ht; exact absurd ht (by simp)
    | some d =>
      obtain ⟨d1, d2, d3⟩ := d
      rw [he] at ht
      simp only [Except.ok.injEq] at ht
      subst ht
      simp [hb]
  · intro b t hb ht
    unfold parse_action_flags at ht
    cases he : action_map_entry action o with
    | none => rw [he] at ht; exact absurd ht (by simp)
    | some d =>
      obtain ⟨d1, d2, d3⟩ := d
      rw [he] at ht
      simp only [Except.ok.injEq] at ht
      subst ht
      simp [hb]

/-- Witness for `action_flag_matrix_defaults_and_overrides`: action
`market_open_long` with no overrides resolves to (long, increase, market)
= (true, true, true). -/
theorem action_flag_matrix_witness :
    parse_action_flags "market_open_long" oPlain = .ok (true, true, true) := by
  have h :=
    (action_flag_matrix_defaults_and_overrides "market_open_long" oPlain
      (by simp [known_actions])).1 rfl rfl rfl
  simpa [documented_default] using h

/-- Claim C4: a raw order with an explicit guard field resolves that value;
otherwise auto-calculation, when enabled, applies the pure table of
(isLong, isIncrease) — (increase, long) false, (increase, short) true,
(close, long) true, (close, short) false, independent of isMarket — and
when disabled the safe default is true. -/
theorem execution_guard_resolution (net : NetworkConfig) (pair : PairConfig)
    (o : RawOrder) (w : String) (auto : Bool) (spec : OrderSpec)
    (hres : create_standard_order net pair o w auto = .ok spec) :
    (∀ b, o.can_execute_above_price = some b → spec.can_execute_above_price = b) ∧
    (o.can_execute_above_price = none → auto = true →
      ∀ l i m, parse_action_flags o.action o = .ok (l, i, m) →
        spec.can_execute_above_price = calculate_execution_guard l i m) ∧
    (o.can_execute_above_price = none → auto = false →
      spec.can_execute_above_price = true) ∧
    (∀ m, calculate_execution_guard true true m = false ∧
          calculate_execution_guard false true m = true ∧
          calculate_execution_guard true false m = true ∧
          calculate_execution_guard false false m = false) := by
  unfold create_standard_order at hres
  cases hp : parse_action_flags o.action o with
  | error e => rw [hp] at hres; exact absurd hres (by simp)
  | ok t =>
    obtain ⟨l, i, m⟩ := t
    rw [hp] at hres
    simp only [Except.ok.injEq] at hres
    subst hres
    refine ⟨?_, ?_, ?_, ?_⟩
    · intro b hb; simp [hb]
    · intro h0 hauto l2 i2 m2 hp2
      have heq : ((l, i, m) : Bool × Bool × Bool) = (l2, i2, m2) := Except.ok.inj hp2
      cases heq
      simp [h0, hauto]
    · intro h0 hauto; simp [h0, hauto]
    · intro m2; cases m2 <;> exact ⟨rfl, rfl, rfl, rfl⟩

/-- Witness for `execution_guard_resolution`: order `oW` omits the guard
field; with auto-calculation enabled and flags (true, true, true) the guard
resolves to the table value for (increase, long). -/
theorem execution_guard_resolution_witness :
    specW.can_execute_above_price = calculate_execution_guard true true true :=
  (execution_guard_resolution net0 pair0 oW "0xabc" true specW rfl).2.1
    rfl rfl true true true rfl

theorem missing_required_field_finds_absent (c : CustomParams)
    (hmiss : c.size_units = none ∨ c.collateral_units = none ∨ c.price_units = none ∨
      c.is_long = none ∨ c.is_increase = none ∨ c.is_market = none ∨
      c.can_execute_above_price = none) :
    ∃ f, missing_required_field c = some f ∧ custom_field_missing c f := by
  unfold missing_required_field
  by_cases h1 : c.size_units = none
  · exact ⟨"size_units", by rw [if_pos h1], Or.inl ⟨rfl, h1⟩⟩
  rw [if_neg h1]
  by_cases h2 : c.collateral_units = none
  · exact ⟨"collateral_units", by rw [if_pos h2], Or.inr (Or.inl ⟨rfl, h2⟩)⟩
  rw [if_neg h2]
  by_cases h3 : c.price_units = none
  · exact ⟨"price_units", by rw [if_pos h3], Or.inr (Or.inr (Or.inl ⟨rfl, h3⟩))⟩
  rw [if_neg h3]
  by_cases h4 : c.is_long = none
  · exact ⟨"is_long", by rw [if_pos h4], Or.inr (Or.inr (Or.inr (Or.inl ⟨rfl, h4⟩)))⟩
  rw [if_neg h4]
  by_cases h5 : c.is_increase = none
  · exact ⟨"is_increase", by rw [if_pos h5],
      Or.inr (Or.inr (Or.inr (Or.inr (Or.inl ⟨rfl, h5⟩))))⟩
  rw [if_neg h5]
  by_cases h6 : c.is_market = none
  · exact ⟨"is_market", by rw [if_pos h6],
      Or.inr (Or.inr (Or.inr (Or.inr (Or.inr (Or.inl ⟨rfl, h6⟩)))))⟩
  rw [if_neg h6]
  by_cases h7 : c.can_execute_above_price = none
  · exact ⟨"can_execute_above_price", by rw [if_pos h7],
      Or.inr (Or.inr (Or.inr (Or.inr (Or.inr (Or.inr ⟨rfl, h7⟩)))))⟩
  rcases hmiss with h | h | h | h | h | h | h <;> contradiction

/-- Claim C5: on the raw-override path, absence of any of the seven
required fields makes resolution fail with an error naming a missing field
— a block missing only `is_market` fails naming `is_market` — while absent
stop-loss/take-profit default to 0 without failure, the present fields are
emitted verbatim, and the dispatch runs no derivation logic: with a custom
block present, resolution is `create_custom_order` on the block and wallet
alone, independent of network, pair, flags and guard configuration. -/
theorem custom_order_required_fields (c : CustomParams) (w : String) :
    ((c.size_units = none ∨ c.collateral_units = none ∨ c.price_units = none ∨
      c.is_long = none ∨ c.is_increase = none ∨ c.is_market = none ∨
      c.can_execute_above_price = none) →
      ∃ f, create_custom_order c w = .error ("Custom order missing required field: " ++ f) ∧
        custom_field_missing c f) ∧
    (c.size_units ≠ none → c.collateral_units ≠ none → c.price_units ≠ none →
     c.is_long ≠ none → c.is_increase ≠ none → c.is_market = none →
      create_custom_order c w = .error ("Custom order missing required field: " ++ "is_market")) ∧
    (∀ su cu pu bl bi bm bg, c.size_units = some su → c.collateral_units = some cu →
      c.price_units = some pu → c.is_long = some bl → c.is_increase = some bi →
      c.is_market = some bm → c.can_execute_above_price = some bg →
      create_custom_order c w = .ok {
        wallet_address := w, size_units := su, collateral_units := cu, price_units := pu,
        is_long := bl, is_increase := bi, is_market := bm,
        stop_loss_units := c.stop_loss_units.getD 0,
        take_profit_units := c.take_profit_units.getD 0,
        can_execute_above_price := bg }) ∧
    (∀ net pair o auto, o.custom_parameters = some c →
      create_order_parameters net pair o w auto = create_custom_order c w) := by
  refine ⟨?_, ?_, ?_, ?_⟩
  · intro hmiss
    obtain ⟨f, hf, hfm⟩ := missing_required_field_finds_absent c hmiss
    exact ⟨f, by unfold create_custom_order; rw [hf], hfm⟩
  · intro h1 h2 h3 h4 h5 h6
    have hf : missing_required_field c = some "is_market" := by
      unfold missing_required_field
      rw [if_neg h1, if_neg h2, if_neg h3, if_neg h4, if_neg h5, if_pos h6]
    unfold create_custom_order
    rw [hf]
  · intro su cu pu bl bi bm bg hsu hcu hpu hbl hbi hbm hbg
    have hf : missing_required_field c = none := by
      unfold missing_required_field
      rw [if_neg (by rw [hsu]; exact Option.noConfusion),
          if_neg (by rw [hcu]; exact Option.noConfusion),
          if_neg (by rw [hpu]; exact Option.noConfusion),
          if_neg (by rw [hbl]; exact Option.noConfusion),
          if_neg (by rw [hbi]; exact Option.noConfusion),
          if_neg (by rw [hbm]; exact Option.noConfusion),
          if_neg (by rw [hbg]; exact Option.noConfusion)]
    unfold create_custom_order
    rw [hf]
    simp [hsu, hcu, hpu, hbl, hbi, hbm, hbg]
  · intro net pair o auto hco
    unfold create_order_parameters
    rw [hco]

/-- Witness for `custom_order_required_fields`: the block `cMissingMarket`
misses only `is_market`; resolution fails naming `is_market`. -/
theorem custom_order_required_fields_witness :
    create_custom_order cMissingMarket "0xabc" =
      .error ("Custom order missing required field: " ++ "is_market") :=
  (custom_order_required_fields cMissingMarket "0xabc").2.1
    (by simp [cMissingMarket]) (by simp [cMissingMarket]) (by simp [cMissingMarket])
    (by simp [cMissingMarket]) (by simp [cMissingMarket]) rfl

/-- Claim C6: whenever the completion phase is reached without an
exception, the driver reports success — for every captured output string,
with or without a "success"/"executed" marker, the classification after
completion is `true`. -/
theorem completion_always_reports_success (env : DriverEnv) (spec : OrderSpec)
    (output : String) (h1 : env.resolve = .ok spec) (h2 : env.spawn = .ok ())
    (h3 : env.completion = .ok output) :
    (execute_order env).success = true ∧ ∀ s, classify_output s = true := by
  constructor
  · unfold execute_order
    rw [h1, h2, h3]
    exact classify_output_true output
  · exact classify_output_true

/-- Witness for `completion_always_reports_success` at `envOk`. -/
theorem completion_always_reports_success_witness :
    (execute_order envOk).success = true :=
  (completion_always_reports_success envOk specW "Transaction executed successfully"
    rfl rfl rfl).1

/-- Claim C7 counterexample: in `envSwallowed` the secret prompt wait
raises an exception, yet `execute_order` returns `true`, not `false`: the
phase-local bare handler (lines 710-711) swallows the exception and
execution continues to a successful completion.  This refutes the claim
that every exception during a prompt wait or send yields `false`. -/
theorem swallowed_prompt_exception_returns_true :
    envSwallowed.secret_phase = .error "TIMEOUT" ∧
    (execute_order envSwallowed).success = true := by
  constructor
  · rfl
  · rw [show execute_order envSwallowed =
        { success := classify_output "raw output", spawned := true, close_called := true }
      from rfl]
    exact classify_output_true "raw output"

/-- Claim C7 (amended): no exception escapes the driver and a boolean is
always returned; exceptions during resolution, spawn or the completion wait
reach the order-level handler and yield `false`, while exceptions during
the secret and confirmation prompt phases are swallowed by phase-local
handlers, so execution continues and the call classifies the completed
output as usual (hence possibly `true`). -/
theorem execute_order_exception_boundary (env : DriverEnv) :
    ((∃ e, env.resolve = .error e) ∨ (∃ e, env.spawn = .error e) ∨
     (∃ e, env.completion = .error e) → (execute_order env).success = false) ∧
    (∀ spec out, env.resolve = .ok spec → env.spawn = .ok () → env.completion = .ok out →
      (execute_order env).success = classify_output out) := by
  constructor
  · intro h
    unfold execute_order
    cases hr : env.resolve with
    | error e => rfl
    | ok spec =>
      cases hs : env.spawn with
      | error e => rfl
      | ok u =>
        cases hc : env.completion with
        | error e => rfl
        | ok out =>
          exfalso
          rcases h with ⟨e, he⟩ | ⟨e, he⟩ | ⟨e, he⟩
          · rw [hr] at he; exact Except.noConfusion he
          · rw [hs] at he; exact Except.noConfusion he
          · rw [hc] at he; exact Except.noConfusion he
  · intro spec out h1 h2 h3
    unfold execute_order
    rw [h1, h2, h3]

/-- Witness for `execute_order_exception_boundary`: a spawn exception
yields a `false` return. -/
theorem execute_order_exception_boundary_witness :
    (execute_order envSpawnFail).success = false :=
  (execute_order_exception_boundary envSpawnFail).1
    (Or.inr (Or.inl ⟨"spawn failed", rfl⟩))

/-- Claim C8: on every exit path of one order's execution — normal
completion, classified failure, timeout, or an exception at any phase
including spawn — whenever a process handle came into existence, the
`finally` block forcibly terminates it before control returns. -/
theorem process_handle_closed_on_every_exit (env : DriverEnv)
    (h : (execute_order env).spawned = true) :
    (execute_order env).close_called = true := by
  unfold execute_order at h ⊢
  cases hr : env.resolve with
  | error e => rw [hr] at h; exact absurd h (by simp)
  | ok spec =>
    cases hs : env.spawn with
    | error e => rw [hr, hs] at h; exact absurd h (by simp)
    | ok u =>
      cases hc : env.completion with
      | error e => rfl
      | ok out => rfl

/-- Witness for `process_handle_closed_on_every_exit` at `envSwallowed`. -/
theorem process_handle_closed_on_every_exit_witness :
    (execute_order envSwallowed).close_called = true :=
  process_handle_closed_on_every_exit envSwallowed rfl

theorem exec_list_append {α : Type} (a b : List (Event α)) :
    exec_list (a ++ b) = exec_list a ++ exec_list b :=
  List.filterMap_append a b _

theorem exec_list_nil {α : Type} : exec_list ([] : List (Event α)) = [] := rfl

theorem exec_list_cycleSleep {α : Type} :
    exec_list ([Event.cycleSleep] : List (Event α)) = [] := rfl

theorem exec_list_cons_cycleSleep {α : Type} (es : List (Event α)) :
    exec_list (Event.cycleSleep :: es) = exec_list es := rfl

theorem exec_list_strategy_loop {α : Type} (n : ℕ) (l : List α) (i : ℕ) :
    exec_list (strategy_loop n l i) = l := by
  induction l generalizing i with
  | nil => rfl
  | cons o rest ih =>
    by_cases h : i < n <;>
      simp [strategy_loop, exec_list, h, List.filterMap_append] <;>
      exact ih (i + 1)

theorem countP_exec_strategy_loop {α : Type} (n : ℕ) (l : List α) (i : ℕ) :
    (strategy_loop n l i).countP Event.isExec = l.length := by
  induction l generalizing i with
  | nil => rfl
  | cons o rest ih =>
    by_cases h : i < n <;>
      simp [strategy_loop, h, List.countP_cons, List.countP_append, ih (i + 1),
        Event.isExec, Nat.add_comm]

theorem countP_orderSleep_strategy_loop {α : Type} (l : List α) (i n : ℕ)
    (h : i + l.length = n + 1) :
    (strategy_loop n l i).countP Event.isOrderSleep = l.length - 1 := by
  induction l generalizing i with
  | nil => rfl
  | cons o rest ih =>
    cases rest with
    | nil =>
      have hi : ¬ i < n := by simp at h; omega
      simp [strategy_loop, hi, List.countP_cons, Event.isOrderSleep]
    | cons o2 rest2 =>
      have hi : i < n := by simp at h; omega
      have hrec := ih (i + 1) (by simp at h ⊢; omega)
      simp [strategy_loop, hi, List.countP_cons, List.countP_append,
        Event.isOrderSleep] at hrec ⊢
      omega

theorem countP_cycleSleep_strategy_loop {α : Type} (n : ℕ) (l : List α) (i : ℕ) :
    (strategy_loop n l i).countP Event.isCycleSleep = 0 := by
  induction l generalizing i with
  | nil => rfl
  | cons o rest ih =>
    by_cases h : i < n <;>
      simp [strategy_loop, h, List.countP_cons, List.countP_append, ih (i + 1),
        Event.isCycleSleep]

/-- Claim C9: running a strategy of `orders` for `c` cycles invokes the
driver exactly `c * length orders` times, in strategy order within each
cycle and cycle after cycle (the execution trace is `c` concatenated copies
of the order list), the inter-order sleep elapses `length orders − 1` times
per cycle (never after the last order), the inter-cycle sleep elapses
`c − 1` times (never after the final cycle), and with `cycles = −1` the
loop guard admits another cycle at every count, so the sequence repeats
unboundedly. -/
theorem strategy_sequencing (α : Type) (orders : List α) (c : ℕ) :
    exec_list (run_events orders c) = (List.replicate c orders).flatten ∧
    (run_events orders c).countP Event.isExec = c * orders.length ∧
    (run_events orders c).countP Event.isOrderSleep = c * (orders.length - 1) ∧
    (run_events orders c).countP Event.isCycleSleep = c - 1 ∧
    (∀ k : ℕ, loop_condition (-1) k = true) := by
  have hexec : exec_list (strategy_events orders) = orders :=
    exec_list_strategy_loop orders.length orders 1
  have hcexec : (strategy_events orders).countP Event.isExec = orders.length :=
    countP_exec_strategy_loop orders.length orders 1
  have hcorder : (strategy_events orders).countP Event.isOrderSleep
      = orders.length - 1 :=
    countP_orderSleep_strategy_loop orders 1 orders.length (by omega)
  have hccycle : (strategy_events orders).countP Event.isCycleSleep = 0 :=
    countP_cycleSleep_strategy_loop orders.length orders 1
  refine ⟨?_, ?_, ?_, ?_, ?_⟩
  · induction c with
    | zero => rfl
    | succ c ih =>
      by_cases h : 0 < c <;>
        simp [run_events, h, exec_list_append, exec_list_nil, exec_list_cycleSleep,
          exec_list_cons_cycleSleep, hexec, ih, List.replicate_succ]
  · induction c with
    | zero => simp [run_events]
    | succ c ih =>
      by_cases h : 0 < c <;>
        simp [run_events, h, List.countP_append, ih, hcexec, Event.isExec,
          Nat.succ_mul, Nat.add_comm]
  · induction c with
    | zero => simp [run_events]
    | succ c ih =>
      by_cases h : 0 < c <;>
        simp [run_events, h, List.countP_append, ih, hcorder, Event.isOrderSleep,
          Nat.succ_mul, Nat.add_comm]
  · induction c with
    | zero => simp [run_events]
    | succ c ih =>
      by_cases h : 0 < c <;>
        simp [run_events, h, List.countP_append, ih, hccycle, Event.isCycleSleep] <;>
        omega
  · intro k
    simp [loop_condition]

end DexlynBot
